import Mathlib

set_option maxRecDepth 4000

/-!
Formal model of the ECG sleep-apnea analysis pipeline implemented in
`src/backend/src/routes/ecg.py`: the per-format extraction functions
(`parse_csv_file`'s line-oriented fallback, `parse_txt_file`,
`parse_json_file`, `parse_apn_file`), the windowed detector
`detect_sleep_apnea`, the aggregation into an AHI value and severity band,
and the visualization reduction performed by `upload_file`.

Modelling conventions:
* Python floats are modelled as rationals (`ℚ`); every arithmetic step of
  the analysed claims is exact in both systems.
* The random draws of `np.random.rand` (one per window) and of
  `random.choice` (one severity label per window) are explicit parameters
  `draws : ℕ → ℚ` and `sevs : ℕ → String`, indexed by window number.
* Text payloads are modelled after tokenisation: a physical line is the
  list of its whitespace/comma-separated tokens, each token being either a
  value accepted by Python's `float()` or a raw string on which `float()`
  raises.
* `None` results and raised-and-propagated `ValueError`s are both `none`.
-/

/-- A token of a text payload: `num q` is a token accepted by Python
`float()` with value `q`; `raw s` is a token on which `float()` raises
`ValueError` (its text is kept for the comment-marker test). -/
inductive Token where
  | num (q : ℚ)
  | raw (s : String)
  deriving DecidableEq

/-- Value of Python `float(tok)`; `none` when `float` raises
(ecg.py lines 68, 91, 152). -/
def Token.float? : Token → Option ℚ
  | .num q => some q
  | .raw _ => none

/-- Python `line.startswith(m)` for a stripped line, tested on its token
list: the stripped line starts with a marker iff its first token does
(tokens are the whitespace split of the stripped line, so the line's first
character is the first token's first character).  A numeric token never
starts with a marker. -/
def lineIsComment (marks : List String) (ts : List Token) : Bool :=
  match ts with
  | .raw s :: _ => marks.any (fun m => s.startsWith m)
  | _ => false

/-- Comment markers skipped by `parse_txt_file` (ecg.py line 86). -/
def txt_comment_markers : List String := ["#", "//"]

/-- Comment marker skipped by `parse_apn_file` (ecg.py line 144). -/
def apn_comment_markers : List String := ["#"]

/-- Model of `[float(x) for x in line...split() if x.strip()]` (ecg.py
lines 68 and 91): the comprehension is all-or-nothing — if `float` raises
on any token the whole line yields nothing. -/
def lineFloats : List Token → Option (List ℚ)
  | [] => some []
  | t :: ts =>
    match t.float?, lineFloats ts with
    | some v, some vs => some (v :: vs)
    | _, _ => none

/-- One iteration of the line loop of `parse_txt_file` (ecg.py lines
84-94): skip blank lines and `#`/`//` comments, extract all numeric
tokens of the line, skip the line entirely if any token fails. -/
def txt_line_step (acc : List ℚ) (ts : List Token) : List ℚ :=
  if ts.isEmpty || lineIsComment txt_comment_markers ts then acc
  else
    match lineFloats ts with
    | some vs => acc ++ vs
    | none => acc

/-- `parse_txt_file` (ecg.py lines 78-99): line-oriented numeric
extraction; `none` when nothing was extracted. -/
def parse_txt_file (ls : List (List Token)) : Option (List ℚ) :=
  let data := ls.foldl txt_line_step []
  if data.isEmpty then none else some data

/-- One iteration of the line loop of `parse_apn_file` (ecg.py lines
142-156): a non-blank, non-comment line with two or more tokens
contributes `float(parts[-1])`; a single-token line contributes
`float(parts[0])`, which is also its last token; a line whose taken token
fails `float` is skipped. -/
def apn_line_step (acc : List ℚ) (ts : List Token) : List ℚ :=
  if ts.isEmpty || lineIsComment apn_comment_markers ts then acc
  else
    match ts.getLast? with
    | some t =>
      match t.float? with
      | some v => acc ++ [v]
      | none => acc
    | none => acc

/-- `parse_apn_file` (ecg.py lines 134-161). -/
def parse_apn_file (ls : List (List Token)) : Option (List ℚ) :=
  let data := ls.foldl apn_line_step []
  if data.isEmpty then none else some data

/-- One iteration of the fallback line loop of `parse_csv_file` (ecg.py
lines 65-71): no blank/comment skipping; a line on which any token fails
`float` contributes nothing. -/
def csv_line_step (acc : List ℚ) (ts : List Token) : List ℚ :=
  match lineFloats ts with
  | some vs => acc ++ vs
  | none => acc

/-- The line-oriented numeric fallback of `parse_csv_file` (ecg.py lines
62-73), reached when no delimiter yields a usable table. -/
def csv_fallback (ls : List (List Token)) : Option (List ℚ) :=
  let data := ls.foldl csv_line_step []
  if data.isEmpty then none else some data

/-- JSON values as produced by `json.loads`. -/
inductive JsonValue where
  | num (q : ℚ)
  | str (s : String)
  | boolVal (b : Bool)
  | null
  | arr (elems : List JsonValue)
  | obj (fields : List (String × JsonValue))

/-- Python `isinstance(x, (int, float))` (ecg.py lines 109, 126): JSON
booleans pass the test because `bool` is a subclass of `int` in Python. -/
def jsonIsNumber : JsonValue → Bool
  | .num _ => true
  | .boolVal _ => true
  | _ => false

/-- Python `data[key]` together with `key in data`; `fields` models a
Python dict: unique keys, insertion order. -/
def lookupField (fields : List (String × JsonValue)) (k : String) :
    Option JsonValue :=
  (fields.find? (fun p => p.1 == k)).map Prod.snd

/-- Priority key list of the dict branch (ecg.py line 119). -/
def priority_keys : List String :=
  ["ecg", "signal", "data", "values", "amplitudes", "voltages"]

/-- Key list of the record-list branch (ecg.py line 113). -/
def record_keys : List String :=
  ["ecg", "signal", "value", "amplitude", "voltage"]

/-- Dict branch, priority loop (ecg.py lines 119-121): the first priority
key whose value is a list is returned directly — no check that its
elements are numeric is performed. -/
def findPriorityList (fields : List (String × JsonValue)) :
    Option (List JsonValue) :=
  priority_keys.findSome? (fun k =>
    match lookupField fields k with
    | some (.arr l) => some l
    | _ => none)

/-- Dict branch, fallback loop (ecg.py lines 124-127): the first field
whose value is a nonempty list all of whose elements are numeric. -/
def findNumericList (fields : List (String × JsonValue)) :
    Option (List JsonValue) :=
  fields.findSome? (fun p =>
    match p.2 with
    | .arr l => if 0 < l.length && l.all jsonIsNumber then some l else none
    | _ => none)

/-- Record-list branch (ecg.py lines 112-115): when the first element is
an object, return `[item[key] for item in data if key in item]` for the
first key of `record_keys` present in the first element.  Non-object
items are modelled as skipped by the `key in item` membership test; no
claim exercises non-object items in this branch. -/
def extractRecordValues (l : List JsonValue) : Option (List JsonValue) :=
  match l with
  | .obj f0 :: _ =>
    record_keys.findSome? (fun k =>
      match lookupField f0 k with
      | some _ => some (l.filterMap (fun item =>
          match item with
          | .obj f => lookupField f k
          | _ => none))
      | none => none)
  | _ => none

/-- `parse_json_file` (ecg.py lines 101-132) applied to the decoded JSON
value; `none` models both the explicit `return None` and a raised
`ValueError`.  Note `all(...)` over an empty list is `True` in Python, so
an empty JSON array is returned as an empty (successful) extraction. -/
def parse_json_file (data : JsonValue) : Option (List JsonValue) :=
  match data with
  | .arr l =>
    if l.all jsonIsNumber then some l
    else extractRecordValues l
  | .obj fields =>
    match findPriorityList fields with
    | some l => some l
    | none => findNumericList fields
  | _ => none

/-- The `ApneaEvent` dict built at ecg.py lines 218-225. -/
structure ApneaEvent where
  start_time : ℚ
  end_time : ℚ
  duration : ℚ
  start_index : ℕ
  end_index : ℕ
  severity : String
  deriving DecidableEq

/-- The `signal_stats` dict (ecg.py lines 258-264).  `np.std` is a square
root and hence irrational-valued; no claim mentions it and it is omitted
from the model. -/
structure SignalStats where
  mean : ℚ
  smin : ℚ
  smax : ℚ
  length : ℕ
  deriving DecidableEq

/-- The result dict of `detect_sleep_apnea` (ecg.py lines 251-265). -/
structure AnalysisResult where
  apnea_count : ℕ
  ahi : ℚ
  severity : String
  duration_hours : ℚ
  apnea_events : List ApneaEvent
  probability_data : List (ℚ × ℚ)
  signal_stats : SignalStats
  deriving DecidableEq

/-- The segment loop of ecg.py lines 179-189: for `i = 0, 250, 500, ...`
slice `ecg_data[i : i+250]` and keep only the full 250-sample slices.
`range(0, L, 250)` performs `⌈L/250⌉` iterations; iteration `j` slices at
offset `j * 250`.  The per-window feature vector `[mean, std, min, max]`
computed from each slice never influences the output — only the number of
feature rows does — so the windows themselves stand for the feature rows
(`std` is irrational-valued and not representable in `ℚ`). -/
def segments (ecg : List ℚ) : List (List ℚ) :=
  ((List.range ((ecg.length + 249) / 250)).map
      (fun j => (ecg.drop (j * 250)).take 250)).filter
    (fun s => s.length == 250)

/-- `np.mean` on a list of rationals; `detect_sleep_apnea` only applies
it to nonempty input (the length-0 guard comes first). -/
def meanQ (l : List ℚ) : ℚ := (l.foldl (· + ·) 0) / l.length

/-- `np.min` (total model with default 0; only applied to nonempty input). -/
def minQ (l : List ℚ) : ℚ :=
  match l with
  | [] => 0
  | a :: t => t.foldl min a

/-- `np.max` (total model with default 0; only applied to nonempty input). -/
def maxQ (l : List ℚ) : ℚ :=
  match l with
  | [] => 0
  | a :: t => t.foldl max a

/-- Per-window likelihood (ecg.py line 201):
`np.random.rand() * (1 - sensitivity) + sensitivity * 0.5`, with `draws i`
the i-th draw of `np.random.rand`. -/
def simulated_probability (draws : ℕ → ℚ) (s : ℚ) (i : ℕ) : ℚ :=
  draws i * (1 - s) + s * (1 / 2)

/-- Threshold classification (ecg.py lines 204-205): window `i` is
positive iff its likelihood strictly exceeds the fixed threshold 0.5. -/
def apnea_prediction (draws : ℕ → ℚ) (s : ℚ) (i : ℕ) : Bool :=
  decide (1 / 2 < simulated_probability draws s i)

/-- The event dict built for positive window `i` (ecg.py lines 212-225):
`start_idx = i * 250`, `end_idx = min((i + 1) * 250, len(ecg_data) - 1)`,
times and duration in seconds at 250 Hz. -/
def mkApneaEvent (L i : ℕ) (sev : String) : ApneaEvent :=
  { start_time := ((i * 250 : ℕ) : ℚ) / 250
    end_time := ((min ((i + 1) * 250) (L - 1) : ℕ) : ℚ) / 250
    duration := (((min ((i + 1) * 250) (L - 1) : ℕ) : ℚ) - ((i * 250 : ℕ) : ℚ)) / 250
    start_index := i * 250
    end_index := min ((i + 1) * 250) (L - 1)
    severity := sev }

/-- The event loop of ecg.py lines 209-225: `enumerate` over the window
predictions appends one event for every positive window, in window order;
`sevs i` is the `random.choice(['mild', 'moderate', 'severe'])` draw used
for window `i`'s event. -/
def apnea_events (L n : ℕ) (draws : ℕ → ℚ) (s : ℚ) (sevs : ℕ → String) :
    List ApneaEvent :=
  ((List.range n).filter (fun i => apnea_prediction draws s i)).map
    (fun i => mkApneaEvent L i (sevs i))

/-- `duration_hours` (ecg.py line 229) with `sampling_rate = 250`. -/
def duration_hours_val (L : ℕ) : ℚ := (L : ℚ) / (250 * 3600)

/-- `ahi` (ecg.py line 230): event count divided by the duration in
hours, the denominator floored at 0.1. -/
def ahi_val (c L : ℕ) : ℚ := (c : ℚ) / max (duration_hours_val L) (1 / 10)

/-- The severity banding of ecg.py lines 233-240. -/
def ahi_severity (a : ℚ) : String :=
  if a < 5 then ("Normal")
  else if a < 15 then ("Mild")
  else if a < 30 then ("Moderate")
  else ("Severe")

/-- Python `round(x, 2)` (ecg.py lines 253, 255).  Mathlib's `round`
resolves ties upward while Python rounds ties to even; no claim depends
on a tie. -/
def round2 (q : ℚ) : ℚ := ((round (q * 100) : ℤ) : ℚ) / 100

/-- `probability_data` (ecg.py lines 243-249): one
`(time, probability)` pair per window, time-stamped at the window's start
offset `i * segment_length / sampling_rate`. -/
def prob_data (n : ℕ) (draws : ℕ → ℚ) (s : ℚ) : List (ℚ × ℚ) :=
  (List.range n).map
    (fun i => (((i * 250 : ℕ) : ℚ) / 250, simulated_probability draws s i))

/-- `detect_sleep_apnea` (ecg.py lines 163-268): `None` for an empty
input, `None` when no full window exists (`if not features`), otherwise
the assembled result dict.  `ahi` and `severity` are computed from the
full (untruncated) event list; only the reported `apnea_events` list is
truncated to 50 entries. -/
def detect_sleep_apnea (ecg : List ℚ) (draws : ℕ → ℚ) (s : ℚ)
    (sevs : ℕ → String) : Option AnalysisResult :=
  if ecg.length = 0 then none
  else
    let features := segments ecg
    if features.length = 0 then none
    else
      let events := apnea_events ecg.length features.length draws s sevs
      some
        { apnea_count := events.length
          ahi := round2 (ahi_val events.length ecg.length)
          severity := ahi_severity (ahi_val events.length ecg.length)
          duration_hours := round2 (duration_hours_val ecg.length)
          apnea_events := events.take 50
          probability_data := prob_data features.length draws s
          signal_stats :=
            { mean := meanQ ecg
              smin := minQ ecg
              smax := maxQ ecg
              length := ecg.length } }

/-- The sensitivity clamp of `upload_file` (ecg.py line 317). -/
def clamp_sensitivity (s : ℚ) : ℚ := max 0 (min 1 s)

def err_no_data : String := "Could not extract ECG data from file"

def err_analyze : String := "Failed to analyze ECG data"

/-- The analysis portion of `upload_file` (ecg.py lines 312-323): reject
a missing (`None`) or empty extraction with a 400 error, clamp the
sensitivity, run the detector, and surface a `None` detector result as a
500 error. -/
def upload_analysis (parsed : Option (List ℚ)) (draws : ℕ → ℚ) (s : ℚ)
    (sevs : ℕ → String) : Except String AnalysisResult :=
  match parsed with
  | none => .error err_no_data
  | some ecg =>
    if ecg.length = 0 then .error err_no_data
    else
      match detect_sleep_apnea ecg draws (clamp_sensitivity s) sevs with
      | none => .error err_analyze
      | some a => .ok a

/-- Python `ecg_data[::k]` for `k ≥ 1`: the elements whose index is a
multiple of `k`, in order. -/
def strideSample (l : List ℚ) (k : ℕ) : List ℚ :=
  (l.enum.filter (fun p => p.1 % k == 0)).map Prod.snd

/-- The visualization reduction of `upload_file` (ecg.py lines 326-331):
when the signal has more than `max_points = 5000` samples, stride-sample
it at `step = len(ecg_data) // max_points`; otherwise pass it through. -/
def ecg_visualization (ecg : List ℚ) : List ℚ :=
  if 5000 < ecg.length then strideSample ecg (ecg.length / 5000) else ecg

/-- A payload none of whose tokens is accepted by `float()`. -/
def noNumericToken (ls : List (List Token)) : Prop :=
  ∀ ts ∈ ls, ∀ t ∈ ts, t.float? = none

/-- A line made of numeric tokens only, at least one. -/
def cleanNumericLine (ts : List Token) : Prop :=
  ts ≠ [] ∧ ∀ t ∈ ts, ∃ q, t = Token.num q

/-- The numeric values of a payload's tokens, in payload order. -/
def tokenValues (ls : List (List Token)) : List ℚ :=
  ls.flatten.filterMap Token.float?

/-! ### Helper lemmas about the segmenter -/

/-- The kept slices are exactly the full windows: window `j` exists for
`j < L / 250` and is the slice starting at `j * 250`. -/
theorem segments_eq (l : List ℚ) :
    segments l
      = (List.range (l.length / 250)).map
          (fun j => (l.drop (j * 250)).take 250) := by
  unfold segments
  rw [List.filter_map]
  have hpred : ∀ j : ℕ,
      ((fun s : List ℚ => s.length == 250) ∘
        (fun j => (l.drop (j * 250)).take 250)) j
        = decide (j < l.length / 250) := by
    intro j
    simp only [Function.comp_apply, List.length_take, List.length_drop]
    rw [Bool.eq_iff_iff, beq_iff_eq, decide_eq_true_iff]
    omega
  rw [List.filter_congr (fun j _ => hpred j)]
  congr 1
  have hq : l.length / 250 ≤ (l.length + 249) / 250 := by omega
  by_cases h0 : l.length % 250 = 0
  · have hc : (l.length + 249) / 250 = l.length / 250 := by omega
    rw [hc, List.filter_eq_self.mpr]
    intro a ha
    rw [List.mem_range] at ha
    simpa using ha
  · have hc : (l.length + 249) / 250 = l.length / 250 + 1 := by omega
    rw [hc, List.range_succ, List.filter_append]
    have h1 : (List.range (l.length / 250)).filter
        (fun j => decide (j < l.length / 250)) = List.range (l.length / 250) := by
      apply List.filter_eq_self.mpr
      intro a ha
      rw [List.mem_range] at ha
      simpa using ha
    have h2 : ([l.length / 250].filter
        (fun j => decide (j < l.length / 250))) = [] := by simp
    rw [h1, h2, List.append_nil]

/-- The number of windows is `⌊L / 250⌋`. -/
theorem segments_length (l : List ℚ) :
    (segments l).length = l.length / 250 := by
  rw [segments_eq, List.length_map, List.length_range]

/-- Every emitted window holds exactly 250 samples. -/
theorem segments_mem_length (l : List ℚ) :
    ∀ s ∈ segments l, s.length = 250 := by
  intro s hs
  unfold segments at hs
  rw [List.mem_filter] at hs
  simpa using hs.2

/-- Concatenating consecutive full windows recovers a prefix of the
input. -/
theorem chunks_flatten (l : List ℚ) :
    ∀ q : ℕ, q * 250 ≤ l.length →
      ((List.range q).map (fun j => (l.drop (j * 250)).take 250)).flatten
        = l.take (q * 250) := by
  intro q
  induction q with
  | zero => simp
  | succ q ih =>
    intro h
    rw [List.range_succ, List.map_append, List.flatten_append,
      ih (by omega)]
    simp only [List.map_cons, List.map_nil, List.flatten_cons,
      List.flatten_nil, List.append_nil]
    rw [show (q + 1) * 250 = q * 250 + 250 by ring, List.take_add]

/-- The windows cover exactly the first `⌊L/250⌋ * 250` samples; the
trailing `L mod 250` samples appear in no window. -/
theorem segments_flatten (l : List ℚ) :
    (segments l).flatten = l.take (l.length / 250 * 250) := by
  rw [segments_eq, chunks_flatten l (l.length / 250) (Nat.div_mul_le_self _ _)]

/-! ### Helper lemmas about stride sampling -/

/-- Counting the multiples of `k` below `n`. -/
theorem countP_mod_range (k : ℕ) (hk : 0 < k) :
    ∀ n : ℕ, (List.range n).countP (fun i => i % k == 0) = (n + k - 1) / k := by
  intro n
  induction n with
  | zero =>
    have h0 : (k - 1) / k = 0 := Nat.div_eq_of_lt (by omega)
    simpa using h0.symm
  | succ n ih =>
    rw [List.range_succ, List.countP_append, ih]
    have hsucc : (n + k) / k = (n + k - 1) / k + if k ∣ n + k then 1 else 0 := by
      have h1 : n + k = (n + k - 1) + 1 := by omega
      rw [h1, Nat.succ_div, ← h1]
    have hdvd : (k ∣ n + k) ↔ n % k = 0 := by
      rw [Nat.dvd_add_self_right]
      exact Nat.dvd_iff_mod_eq_zero
    have hgoal : n + 1 + k - 1 = n + k := by omega
    rw [hgoal, hsucc]
    by_cases h0 : n % k = 0
    · simp [h0, hdvd.mpr h0]
    · have : ¬ (k ∣ n + k) := fun hd => h0 (hdvd.mp hd)
      simp [h0, this]

/-- Length of a stride sample: `⌈length / k⌉` elements survive. -/
theorem strideSample_length (l : List ℚ) (k : ℕ) (hk : 0 < k) :
    (strideSample l k).length = (l.length + k - 1) / k := by
  unfold strideSample
  rw [List.length_map, ← List.countP_eq_length_filter]
  have h1 : l.enum.countP (fun p => p.1 % k == 0)
      = (l.enum.map Prod.fst).countP (fun i => i % k == 0) := by
    rw [List.countP_map]
    rfl
  rw [h1, List.enum_map_fst, countP_mod_range k hk]

/-! ### Helper lemmas about the text parsers -/

/-- A line starting with a token that `float` rejects yields nothing. -/
theorem lineFloats_head_raw (s : String) (ts : List Token) :
    lineFloats (Token.raw s :: ts) = none := by
  simp [lineFloats, Token.float?]

/-- A line of numeric tokens yields all its values, in order. -/
theorem lineFloats_all_num (ts : List Token)
    (h : ∀ t ∈ ts, ∃ q, t = Token.num q) :
    lineFloats ts = some (ts.filterMap Token.float?) := by
  induction ts with
  | nil => rfl
  | cons t ts ih =>
    obtain ⟨q, rfl⟩ := h t (by simp)
    have ih' := ih (fun t' ht' => h t' (by simp [ht']))
    simp [lineFloats, Token.float?, ih', List.filterMap_cons]

/-- The filtered values of an all-numeric token list are as many as the
tokens. -/
theorem filterMap_float_length (ts : List Token)
    (h : ∀ t ∈ ts, ∃ q, t = Token.num q) :
    (ts.filterMap Token.float?).length = ts.length := by
  induction ts with
  | nil => rfl
  | cons t ts ih =>
    obtain ⟨q, rfl⟩ := h t (by simp)
    have ih' := ih (fun t' ht' => h t' (by simp [ht']))
    simp [List.filterMap_cons, Token.float?, ih']

/-- With no numeric token anywhere, the txt line loop never extends its
accumulator. -/
theorem foldl_txt_no_num (ls : List (List Token)) (acc : List ℚ)
    (h : ∀ ts ∈ ls, ∀ t ∈ ts, t.float? = none) :
    ls.foldl txt_line_step acc = acc := by
  induction ls generalizing acc with
  | nil => rfl
  | cons ts ls ih =>
    have hstep : txt_line_step acc ts = acc := by
      unfold txt_line_step
      split
      · rfl
      · match ts, h ts (by simp) with
        | [], _ => simp [lineFloats]
        | Token.num q :: ts', hts =>
          exact absurd (hts (Token.num q) (by simp)) (by simp [Token.float?])
        | Token.raw s :: ts', hts =>
          rw [lineFloats_head_raw]
    rw [List.foldl_cons, hstep]
    exact ih acc (fun ts' hts' => h ts' (by simp [hts']))


/-- The last element of a list is a member of it. -/
theorem mem_of_getLast_some {α : Type _} {l : List α} {a : α}
    (h : l.getLast? = some a) : a ∈ l := by
  cases l with
  | nil => simp [List.getLast?] at h
  | cons x xs =>
    have hne : (x :: xs) ≠ [] := by simp
    rw [List.getLast?_eq_getLast_of_ne_nil hne] at h
    have h' : (x :: xs).getLast hne = a := by simpa using h
    exact h' ▸ List.getLast_mem hne

/-- With no numeric token anywhere, the apn line loop never extends its
accumulator. -/
theorem foldl_apn_no_num (ls : List (List Token)) (acc : List ℚ)
    (h : ∀ ts ∈ ls, ∀ t ∈ ts, t.float? = none) :
    ls.foldl apn_line_step acc = acc := by
  induction ls generalizing acc with
  | nil => rfl
  | cons ts ls ih =>
    have hstep : apn_line_step acc ts = acc := by
      unfold apn_line_step
      split
      · rfl
      · cases hlast : ts.getLast? with
        | none => rfl
        | some t =>
          have ht : t ∈ ts := mem_of_getLast_some hlast
          simp [h ts (by simp) t ht]
    rw [List.foldl_cons, hstep]
    exact ih acc (fun ts' hts' => h ts' (by simp [hts']))

/-- With no numeric token anywhere, the csv fallback line loop never
extends its accumulator. -/
theorem foldl_csv_no_num (ls : List (List Token)) (acc : List ℚ)
    (h : ∀ ts ∈ ls, ∀ t ∈ ts, t.float? = none) :
    ls.foldl csv_line_step acc = acc := by
  induction ls generalizing acc with
  | nil => rfl
  | cons ts ls ih =>
    have hstep : csv_line_step acc ts = acc := by
      unfold csv_line_step
      match ts, h ts (by simp) with
      | [], _ => simp [lineFloats]
      | Token.num q :: ts', hts =>
        exact absurd (hts (Token.num q) (by simp)) (by simp [Token.float?])
      | Token.raw s :: ts', hts =>
        rw [lineFloats_head_raw]
    rw [List.foldl_cons, hstep]
    exact ih acc (fun ts' hts' => h ts' (by simp [hts']))

/-- An all-numeric line is not a comment line. -/
theorem lineIsComment_all_num (marks : List String) (ts : List Token)
    (h : ∀ t ∈ ts, ∃ q, t = Token.num q) :
    lineIsComment marks ts = false := by
  match ts with
  | [] => rfl
  | Token.num q :: ts' => rfl
  | Token.raw s :: ts' =>
    obtain ⟨q, hq⟩ := h (Token.raw s) (by simp)
    exact absurd hq (by simp)

/-- The txt line loop over clean numeric lines appends every token's
value, in order. -/
theorem foldl_txt_clean (ls : List (List Token)) (acc : List ℚ)
    (h : ∀ ts ∈ ls, cleanNumericLine ts) :
    ls.foldl txt_line_step acc = acc ++ tokenValues ls := by
  induction ls generalizing acc with
  | nil => simp [tokenValues]
  | cons ts ls ih =>
    obtain ⟨hne, hnum⟩ := h ts (by simp)
    have hstep : txt_line_step acc ts = acc ++ ts.filterMap Token.float? := by
      unfold txt_line_step
      rw [lineFloats_all_num ts hnum]
      have hcomment := lineIsComment_all_num txt_comment_markers ts hnum
      have hempty : ts.isEmpty = false := by
        cases ts with
        | nil => exact absurd rfl hne
        | cons t ts' => rfl
      rw [hempty, hcomment]
      rfl
    rw [List.foldl_cons, hstep, ih _ (fun ts' hts' => h ts' (by simp [hts']))]
    simp [tokenValues, List.filterMap_append, List.append_assoc]

/-- The csv fallback line loop over clean numeric lines appends every
token's value, in order. -/
theorem foldl_csv_clean (ls : List (List Token)) (acc : List ℚ)
    (h : ∀ ts ∈ ls, cleanNumericLine ts) :
    ls.foldl csv_line_step acc = acc ++ tokenValues ls := by
  induction ls generalizing acc with
  | nil => simp [tokenValues]
  | cons ts ls ih =>
    obtain ⟨hne, hnum⟩ := h ts (by simp)
    have hstep : csv_line_step acc ts = acc ++ ts.filterMap Token.float? := by
      unfold csv_line_step
      rw [lineFloats_all_num ts hnum]
    rw [List.foldl_cons, hstep, ih _ (fun ts' hts' => h ts' (by simp [hts']))]
    simp [tokenValues, List.filterMap_append, List.append_assoc]

/-- The apn line loop over single-numeric-token lines appends the token
of every line, in order. -/
theorem foldl_apn_single (ls : List (List Token)) (acc : List ℚ)
    (h : ∀ ts ∈ ls, ∃ q, ts = [Token.num q]) :
    ls.foldl apn_line_step acc = acc ++ tokenValues ls := by
  induction ls generalizing acc with
  | nil => simp [tokenValues]
  | cons ts ls ih =>
    obtain ⟨q, rfl⟩ := h ts (by simp)
    have hstep : apn_line_step acc [Token.num q] = acc ++ [q] := by
      unfold apn_line_step
      rfl
    rw [List.foldl_cons, hstep, ih _ (fun ts' hts' => h ts' (by simp [hts']))]
    simp [tokenValues, List.filterMap_cons, Token.float?, List.append_assoc]

/-- Total token count of an all-clean payload equals the value count. -/
theorem tokenValues_length (ls : List (List Token))
    (h : ∀ t ∈ ls.flatten, ∃ q, t = Token.num q) :
    (tokenValues ls).length = ls.flatten.length := by
  unfold tokenValues
  exact filterMap_float_length _ h

/-! ### Helper lemmas about the structured parser -/

/-- Whatever the fallback loop returns is a nonempty all-numeric list. -/
theorem findNumericList_spec (fields : List (String × JsonValue))
    (l : List JsonValue) (h : findNumericList fields = some l) :
    l ≠ [] ∧ l.all jsonIsNumber = true := by
  obtain ⟨p, _, hp⟩ := List.exists_of_findSome?_eq_some h
  revert hp
  match p with
  | (k, JsonValue.arr l') =>
    intro hp
    simp only at hp
    split at hp
    · rename_i hcond
      cases hp
      rw [Bool.and_eq_true] at hcond
      refine ⟨?_, hcond.2⟩
      intro hnil
      subst hnil
      simp at hcond
    · exact absurd hp (by simp)
  | (k, JsonValue.num q) => intro hp; exact absurd hp (by simp)
  | (k, JsonValue.str s) => intro hp; exact absurd hp (by simp)
  | (k, JsonValue.boolVal b) => intro hp; exact absurd hp (by simp)
  | (k, JsonValue.null) => intro hp; exact absurd hp (by simp)
  | (k, JsonValue.obj f) => intro hp; exact absurd hp (by simp)

/-- Whatever the priority loop returns is the literal list value stored
under one of the priority keys. -/
theorem findPriorityList_spec (fields : List (String × JsonValue))
    (l : List JsonValue) (h : findPriorityList fields = some l) :
    ∃ k ∈ priority_keys, lookupField fields k = some (.arr l) := by
  obtain ⟨k, hk, hf⟩ := List.exists_of_findSome?_eq_some h
  refine ⟨k, hk, ?_⟩
  revert hf
  cases hlk : lookupField fields k with
  | none => intro hf; exact absurd hf (by simp)
  | some v =>
    match v with
    | JsonValue.arr l' => intro hf; cases hf; rfl
    | JsonValue.num q => intro hf; exact absurd hf (by simp)
    | JsonValue.str s => intro hf; exact absurd hf (by simp)
    | JsonValue.boolVal b => intro hf; exact absurd hf (by simp)
    | JsonValue.null => intro hf; exact absurd hf (by simp)
    | JsonValue.obj f => intro hf; exact absurd hf (by simp)

/-! ### Helper lemmas about the detector -/

/-- Characterisation of a successful detector run: the input is nonempty,
holds at least one full window, and the result is the assembled record. -/
theorem detect_eq_some_iff (ecg : List ℚ) (draws : ℕ → ℚ) (s : ℚ)
    (sevs : ℕ → String) (A : AnalysisResult) :
    detect_sleep_apnea ecg draws s sevs = some A ↔
      ecg.length ≠ 0 ∧ (segments ecg).length ≠ 0 ∧
      A = { apnea_count := (apnea_events ecg.length (segments ecg).length draws s sevs).length
            ahi := round2 (ahi_val (apnea_events ecg.length (segments ecg).length draws s sevs).length ecg.length)
            severity := ahi_severity (ahi_val (apnea_events ecg.length (segments ecg).length draws s sevs).length ecg.length)
            duration_hours := round2 (duration_hours_val ecg.length)
            apnea_events := (apnea_events ecg.length (segments ecg).length draws s sevs).take 50
            probability_data := prob_data (segments ecg).length draws s
            signal_stats :=
              { mean := meanQ ecg
                smin := minQ ecg
                smax := maxQ ecg
                length := ecg.length } } := by
  unfold detect_sleep_apnea
  by_cases h1 : ecg.length = 0
  · simp [h1]
  · rw [if_neg h1]
    by_cases h2 : (segments ecg).length = 0
    · simp [h2, h1]
    · rw [if_neg h2]
      constructor
      · intro h
        exact ⟨h1, h2, (Option.some_inj.mp h).symm⟩
      · intro ⟨_, _, hA⟩
        rw [hA]

/-- Membership in the event list: exactly the positive windows below the
window count contribute, each with its own event. -/
theorem mem_apnea_events (L n : ℕ) (draws : ℕ → ℚ) (s : ℚ)
    (sevs : ℕ → String) (e : ApneaEvent) :
    e ∈ apnea_events L n draws s sevs ↔
      ∃ i, i < n ∧ apnea_prediction draws s i = true
        ∧ e = mkApneaEvent L i (sevs i) := by
  unfold apnea_events
  rw [List.mem_map]
  constructor
  · intro ⟨i, hi, he⟩
    rw [List.mem_filter, List.mem_range] at hi
    exact ⟨i, hi.1, hi.2, he.symm⟩
  · intro ⟨i, hi, hpred, he⟩
    exact ⟨i, List.mem_filter.mpr ⟨List.mem_range.mpr hi, hpred⟩, he.symm⟩

/-- The start time of window `i`'s event is `i` seconds. -/
theorem mkApneaEvent_start_time (L i : ℕ) (sev : String) :
    (mkApneaEvent L i sev).start_time = (i : ℚ) := by
  unfold mkApneaEvent
  push_cast
  field_simp

/-- Events are emitted in window order: an earlier event ends no later
than a later one starts, and start times are monotone. -/
theorem apnea_events_pairwise (L n : ℕ) (draws : ℕ → ℚ) (s : ℚ)
    (sevs : ℕ → String) :
    (apnea_events L n draws s sevs).Pairwise
      (fun a b => a.end_index ≤ b.start_index ∧ a.start_time ≤ b.start_time) := by
  unfold apnea_events
  rw [List.pairwise_map]
  refine ((List.pairwise_lt_range n).filter _).imp ?_
  intro i j hij
  constructor
  · calc (mkApneaEvent L i (sevs i)).end_index
        = min ((i + 1) * 250) (L - 1) := rfl
      _ ≤ (i + 1) * 250 := min_le_left _ _
      _ ≤ j * 250 := by omega
      _ = (mkApneaEvent L j (sevs j)).start_index := rfl
  · rw [mkApneaEvent_start_time, mkApneaEvent_start_time]
    exact_mod_cast Nat.le_of_lt hij

/-! ### Claim theorems -/

/-- C5 (confirmed): for a sequence of length `L` and window size 250 the
segmenter emits exactly `⌊L/250⌋` windows, each of exactly 250 samples;
window `j` is the stride-`250` slice starting at `j * 250`
(non-overlapping and in order), and the concatenation of all windows is
the prefix of length `⌊L/250⌋ * 250`, so the trailing `L mod 250` samples
appear in no window (dropped, not padded). -/
theorem C5_segmenter (l : List ℚ) :
    (segments l).length = l.length / 250
    ∧ (∀ s ∈ segments l, s.length = 250)
    ∧ segments l
        = (List.range (l.length / 250)).map
            (fun j => (l.drop (j * 250)).take 250)
    ∧ (segments l).flatten = l.take (l.length / 250 * 250) :=
  ⟨segments_length l, segments_mem_length l, segments_eq l,
    segments_flatten l⟩

/-- C5 witness: a 300-sample input yields exactly one window, and that
window has 250 samples. -/
theorem C5_segmenter_witness :
    (segments (List.replicate 300 (1 : ℚ))).length = 300 / 250
    ∧ (List.replicate 250 (1 : ℚ)).length = 250 := by
  have hseg : segments (List.replicate 300 (1 : ℚ))
      = [List.replicate 250 (1 : ℚ)] := by
    rw [(C5_segmenter _).2.2.1]
    rw [List.length_replicate]
    rw [show List.range (300 / 250) = [0] from rfl, List.map_cons, List.map_nil]
    rw [show (0 * 250 : ℕ) = 0 from rfl, List.drop_zero, List.take_replicate]
    rw [show (250 ⊓ 300 : ℕ) = 250 by norm_num]
  have hmem : List.replicate 250 (1 : ℚ)
      ∈ segments (List.replicate 300 (1 : ℚ)) := by
    rw [hseg]; exact List.mem_singleton.mpr rfl
  refine ⟨?_, (C5_segmenter _).2.1 _ hmem⟩
  rw [(C5_segmenter _).1, List.length_replicate]

/-- C4 (confirmed): `duration_hours = L / (250 * 3600)`; the AHI divides
the event count by the duration floored at `0.1`, hence is always
nonnegative; the severity bands are exactly the inclusive-lower /
exclusive-upper intervals `(-∞,5) ↦ Normal`, `[5,15) ↦ Mild`,
`[15,30) ↦ Moderate`, `[30,∞) ↦ Severe`; and a successful detector run
reports the severity of the AHI of its (untruncated) event count. -/
theorem C4_aggregator :
    ∀ (c L : ℕ) (a : ℚ) (ecg : List ℚ) (d : ℕ → ℚ) (s : ℚ)
      (sv : ℕ → String) (A : AnalysisResult),
      0 ≤ ahi_val c L
      ∧ duration_hours_val L = (L : ℚ) / 900000
      ∧ ahi_val c L = (c : ℚ) / max (duration_hours_val L) (1 / 10)
      ∧ (ahi_severity a = ("Normal") ↔ a < 5)
      ∧ (ahi_severity a = ("Mild") ↔ 5 ≤ a ∧ a < 15)
      ∧ (ahi_severity a = ("Moderate") ↔ 15 ≤ a ∧ a < 30)
      ∧ (ahi_severity a = ("Severe") ↔ 30 ≤ a)
      ∧ (detect_sleep_apnea ecg d s sv = some A →
          A.apnea_count
              = (apnea_events ecg.length (segments ecg).length d s sv).length
          ∧ A.severity = ahi_severity (ahi_val A.apnea_count ecg.length)) := by
  intro c L a ecg d s sv A
  refine ⟨?_, ?_, rfl, ?_, ?_, ?_, ?_, ?_⟩
  · unfold ahi_val
    apply div_nonneg (by positivity)
    exact le_trans (by norm_num) (le_max_right _ _)
  · unfold duration_hours_val; norm_num
  · unfold ahi_severity
    split_ifs with h1 h2 h3 <;> simp_all <;> (intros; linarith)
  · unfold ahi_severity
    split_ifs with h1 h2 h3 <;> simp_all <;> (intros; linarith)
  · unfold ahi_severity
    split_ifs with h1 h2 h3 <;> simp_all <;> (intros; linarith)
  · unfold ahi_severity
    split_ifs with h1 h2 h3 <;> simp_all <;> (intros; linarith)
  · intro h
    obtain ⟨h1, h2, rfl⟩ := (detect_eq_some_iff _ _ _ _ _).mp h
    exact ⟨rfl, rfl⟩

/-- C4 witness: a concrete successful run (250 zero samples, draw 3/4,
sensitivity 0) whose reported severity matches the AHI banding of its
event count. -/
theorem C4_aggregator_witness :
    ∃ A, detect_sleep_apnea (List.replicate 250 (0 : ℚ)) (fun _ => 3 / 4) 0
        (fun _ => ("mild")) = some A
      ∧ A.severity
          = ahi_severity (ahi_val A.apnea_count (List.replicate 250 (0 : ℚ)).length) := by
  have hlen : (List.replicate 250 (0 : ℚ)).length = 250 := List.length_replicate _ _
  have hseg : (segments (List.replicate 250 (0 : ℚ))).length = 1 := by
    rw [segments_length, hlen]
  have h := (detect_eq_some_iff (List.replicate 250 (0 : ℚ)) (fun _ => 3 / 4) 0
      (fun _ => ("mild")) _).mpr ⟨by omega, by omega, rfl⟩
  exact ⟨_, h,
    ((C4_aggregator 0 0 0 (List.replicate 250 (0 : ℚ)) (fun _ => 3 / 4) 0
        (fun _ => ("mild")) _).2.2.2.2.2.2.2 h).2⟩

/-- C9 (confirmed): at sensitivity 1 every per-window likelihood
`draw * (1 - 1) + 1 * 0.5` equals exactly `1/2`, which does not strictly
exceed the fixed `0.5` threshold, so every window is classified negative,
the event loop emits no event, and a successful detector run reports zero
apnea events. -/
theorem C9_sensitivity_one :
    ∀ (d : ℕ → ℚ) (i L n : ℕ) (sv : ℕ → String) (ecg : List ℚ)
      (A : AnalysisResult),
      simulated_probability d 1 i = 1 / 2
      ∧ apnea_prediction d 1 i = false
      ∧ apnea_events L n d 1 sv = []
      ∧ (detect_sleep_apnea ecg d 1 sv = some A →
          A.apnea_count = 0 ∧ A.apnea_events = []) := by
  intro d i L n sv ecg A
  have hp : ∀ j, simulated_probability d 1 j = 1 / 2 := by
    intro j; unfold simulated_probability; ring
  have hpred : ∀ j, apnea_prediction d 1 j = false := by
    intro j
    unfold apnea_prediction
    rw [hp j]
    simp
  have hev : ∀ (L' n' : ℕ), apnea_events L' n' d 1 sv = [] := by
    intro L' n'
    unfold apnea_events
    rw [List.filter_eq_nil_iff.mpr (fun a _ => by simp [hpred a])]
    rfl
  refine ⟨hp i, hpred i, hev L n, ?_⟩
  intro h
  obtain ⟨h1, h2, rfl⟩ := (detect_eq_some_iff _ _ _ _ _).mp h
  constructor
  · show (apnea_events _ _ _ _ _).length = 0
    rw [hev]
    rfl
  · show (apnea_events _ _ _ _ _).take 50 = []
    rw [hev]
    rfl

/-- C9 witness: a concrete run at sensitivity 1 (250 zero samples, draws
9/10) succeeds and reports zero events. -/
theorem C9_sensitivity_one_witness :
    ∃ A, detect_sleep_apnea (List.replicate 250 (0 : ℚ)) (fun _ => 9 / 10) 1
        (fun _ => ("moderate")) = some A
      ∧ A.apnea_count = 0 ∧ A.apnea_events = [] := by
  have hlen : (List.replicate 250 (0 : ℚ)).length = 250 := List.length_replicate _ _
  have hseg : (segments (List.replicate 250 (0 : ℚ))).length = 1 := by
    rw [segments_length, hlen]
  have h := (detect_eq_some_iff (List.replicate 250 (0 : ℚ)) (fun _ => 9 / 10) 1
      (fun _ => ("moderate")) _).mpr ⟨by omega, by omega, rfl⟩
  exact ⟨_, h,
    (C9_sensitivity_one (fun _ => 9 / 10) 0 0 0 (fun _ => ("moderate"))
      (List.replicate 250 (0 : ℚ)) _).2.2.2 h⟩

/-- C10 (confirmed): a nonempty input shorter than one full 250-sample
window produces no full window, so the detector returns the same failure
value `None` as it does for a zero-length input, rather than a result
with zero events. -/
theorem C10_short_input_failure :
    ∀ (ecg : List ℚ) (d : ℕ → ℚ) (s : ℚ) (sv : ℕ → String),
      ecg ≠ [] → ecg.length < 250 →
      detect_sleep_apnea ecg d s sv = none
      ∧ detect_sleep_apnea [] d s sv = none := by
  intro ecg d s sv hne hlt
  have hL : ecg.length ≠ 0 := by
    intro h0
    exact hne (List.length_eq_zero.mp h0)
  have hseg : (segments ecg).length = 0 := by
    rw [segments_length]
    omega
  constructor
  · simp [detect_sleep_apnea, hL, hseg]
  · simp [detect_sleep_apnea]

/-- C10 witness: a 100-sample nonempty input is rejected exactly like the
empty input. -/
theorem C10_short_input_failure_witness :
    detect_sleep_apnea (List.replicate 100 (0 : ℚ)) (fun _ => 1 / 2) (1 / 2)
        (fun _ => ("mild")) = none
    ∧ detect_sleep_apnea [] (fun _ => 1 / 2) (1 / 2) (fun _ => ("mild")) = none :=
  C10_short_input_failure (List.replicate 100 (0 : ℚ)) (fun _ => 1 / 2) (1 / 2)
    (fun _ => ("mild")) (by simp) (by simp)

/-- C2 counterexample: a 5001-sample signal gets stride
`5001 // 5000 = 1`, so the "reduction" outputs all 5001 points,
violating the claimed 5000-point cap. -/
theorem C2_cap_counterexample :
    5000 < (List.replicate 5001 (0 : ℚ)).length
    ∧ (ecg_visualization (List.replicate 5001 (0 : ℚ))).length = 5001 := by
  have hlen : (List.replicate 5001 (0 : ℚ)).length = 5001 :=
    List.length_replicate _ _
  constructor
  · omega
  · unfold ecg_visualization
    rw [if_pos (by omega)]
    rw [strideSample_length _ _ (by omega)]
    rw [hlen]

/-- C2 (corrected): the reduction passes inputs of at most 5000 samples
through unchanged; for more than 5000 samples it stride-samples at
`step = ⌊count / 5000⌋`, which yields `⌈count / step⌉` points — this can
exceed 5000 (any count in 5001..9999 gets step 1 and is returned whole),
but never exceeds 9999. -/
theorem C2_visualization_reduction (l : List ℚ) :
    (l.length ≤ 5000 → ecg_visualization l = l)
    ∧ (5000 < l.length →
        ecg_visualization l = strideSample l (l.length / 5000)
        ∧ (ecg_visualization l).length
            = (l.length + l.length / 5000 - 1) / (l.length / 5000)
        ∧ (ecg_visualization l).length ≤ 9999) := by
  constructor
  · intro h
    unfold ecg_visualization
    rw [if_neg (by omega)]
  · intro h
    have hk : 0 < l.length / 5000 := by omega
    have heq : ecg_visualization l = strideSample l (l.length / 5000) := by
      unfold ecg_visualization
      rw [if_pos h]
    have hlen : (ecg_visualization l).length
        = (l.length + l.length / 5000 - 1) / (l.length / 5000) := by
      rw [heq, strideSample_length _ _ hk]
    refine ⟨heq, hlen, ?_⟩
    rw [hlen]
    have h10 : (l.length + l.length / 5000 - 1) / (l.length / 5000) < 10000 := by
      rw [Nat.div_lt_iff_lt_mul hk]
      omega
    omega

/-- C2 witness: a 3-sample input passes through unchanged; a
10000-sample input is reduced and stays within the corrected bound. -/
theorem C2_visualization_reduction_witness :
    ecg_visualization [(1 : ℚ), 2, 3] = [(1 : ℚ), 2, 3]
    ∧ (ecg_visualization (List.replicate 10000 (0 : ℚ))).length ≤ 9999 :=
  ⟨(C2_visualization_reduction _).1 (by norm_num),
    ((C2_visualization_reduction _).2
      (by rw [List.length_replicate]; norm_num)).2.2⟩

/-- C1 counterexample: with sensitivity 0 and every draw 3/4, the two
windows of a 500-sample input are adjacent and both positive, yet the
detector reports an event count of 2 — each positive window became its
own event instead of both belonging to one merged event. -/
theorem C1_no_merge_counterexample :
    apnea_prediction (fun _ => 3 / 4) 0 0 = true
    ∧ apnea_prediction (fun _ => 3 / 4) 0 1 = true
    ∧ (∃ A, detect_sleep_apnea (List.replicate 500 (0 : ℚ)) (fun _ => 3 / 4) 0
          (fun _ => ("mild")) = some A ∧ A.apnea_count = 2) := by
  have hpred : ∀ i, apnea_prediction (fun _ => (3 : ℚ) / 4) 0 i = true := by
    intro i
    unfold apnea_prediction simulated_probability
    norm_num
  have hlen : (List.replicate 500 (0 : ℚ)).length = 500 :=
    List.length_replicate _ _
  have hseg : (segments (List.replicate 500 (0 : ℚ))).length = 2 := by
    rw [segments_length, hlen]
  have h := (detect_eq_some_iff (List.replicate 500 (0 : ℚ)) (fun _ => 3 / 4) 0
      (fun _ => ("mild")) _).mpr ⟨by omega, by omega, rfl⟩
  refine ⟨hpred 0, hpred 1, ⟨_, h, ?_⟩⟩
  show (apnea_events (List.replicate 500 (0 : ℚ)).length
      (segments (List.replicate 500 (0 : ℚ))).length (fun _ => 3 / 4) 0
      (fun _ => ("mild"))).length = 2
  rw [hlen, hseg]
  unfold apnea_events
  rw [List.length_map, List.filter_eq_self.mpr (fun a _ => hpred a),
    List.length_range]

/-- C1 (corrected): the detector opens one event per positive window and
never merges runs — the event count equals the number of positive
windows, every event spans at most one window (its end index is at most
its start index plus 250), each event comes from a positive window `i`
with start index `i * 250`, and every positive window below the window
count contributes its own event. -/
theorem C1_one_event_per_window :
    ∀ (L n : ℕ) (d : ℕ → ℚ) (s : ℚ) (sv : ℕ → String),
      (apnea_events L n d s sv).length
          = ((List.range n).filter (fun i => apnea_prediction d s i)).length
      ∧ (∀ e ∈ apnea_events L n d s sv,
          e.end_index ≤ e.start_index + 250
          ∧ ∃ i, i < n ∧ apnea_prediction d s i = true
              ∧ e.start_index = i * 250)
      ∧ (∀ i, i < n → apnea_prediction d s i = true →
          mkApneaEvent L i (sv i) ∈ apnea_events L n d s sv) := by
  intro L n d s sv
  refine ⟨?_, ?_, ?_⟩
  · unfold apnea_events
    rw [List.length_map]
  · intro e he
    obtain ⟨i, hi, hpred, rfl⟩ := (mem_apnea_events _ _ _ _ _ _).mp he
    refine ⟨?_, i, hi, hpred, rfl⟩
    show min ((i + 1) * 250) (L - 1) ≤ i * 250 + 250
    omega
  · intro i hi hpred
    exact (mem_apnea_events _ _ _ _ _ _).mpr ⟨i, hi, hpred, rfl⟩

/-- C1 witness: in the two-positive-window run both windows contribute
their own event. -/
theorem C1_one_event_per_window_witness :
    mkApneaEvent 500 0 ("mild")
        ∈ apnea_events 500 2 (fun _ => 3 / 4) 0 (fun _ => ("mild"))
    ∧ mkApneaEvent 500 1 ("mild")
        ∈ apnea_events 500 2 (fun _ => 3 / 4) 0 (fun _ => ("mild")) := by
  have hpred : ∀ i, apnea_prediction (fun _ => (3 : ℚ) / 4) 0 i = true := by
    intro i
    unfold apnea_prediction simulated_probability
    norm_num
  exact ⟨(C1_one_event_per_window 500 2 (fun _ => 3 / 4) 0
      (fun _ => ("mild"))).2.2 0 (by norm_num) (hpred 0),
    (C1_one_event_per_window 500 2 (fun _ => 3 / 4) 0
      (fun _ => ("mild"))).2.2 1 (by norm_num) (hpred 1)⟩

/-- C3 counterexample: on a 250-sample input whose single window is
positive, the produced event has `end_index = min(250, 249) = 249`, the
last sample index — not a multiple of the 250-sample window size. -/
theorem C3_boundary_counterexample :
    (∃ A, detect_sleep_apnea (List.replicate 250 (0 : ℚ)) (fun _ => 4 / 5) 0
        (fun _ => ("severe")) = some A
      ∧ A.apnea_events.map ApneaEvent.end_index = [249])
    ∧ ¬ (249 % 250 = 0) := by
  have hpred : ∀ i, apnea_prediction (fun _ => (4 : ℚ) / 5) 0 i = true := by
    intro i
    unfold apnea_prediction simulated_probability
    norm_num
  have hlen : (List.replicate 250 (0 : ℚ)).length = 250 :=
    List.length_replicate _ _
  have hseg : (segments (List.replicate 250 (0 : ℚ))).length = 1 := by
    rw [segments_length, hlen]
  have h := (detect_eq_some_iff (List.replicate 250 (0 : ℚ)) (fun _ => 4 / 5) 0
      (fun _ => ("severe")) _).mpr ⟨by omega, by omega, rfl⟩
  refine ⟨⟨_, h, ?_⟩, by norm_num⟩
  show ((apnea_events (List.replicate 250 (0 : ℚ)).length
      (segments (List.replicate 250 (0 : ℚ))).length (fun _ => 4 / 5) 0
      (fun _ => ("severe"))).take 50).map ApneaEvent.end_index = [249]
  rw [hlen, hseg]
  unfold apnea_events
  rw [show List.range 1 = [0] from rfl,
    List.filter_eq_self.mpr (fun a _ => hpred a)]
  rfl

/-- C3 (corrected): every event's `start_index` is a multiple of 250; its
`end_index` is `min(start_index + 250, L - 1)` — a multiple of 250 except
when clamped to the final sample index `L - 1`; events never overlap (an
earlier event's end index is at most a later event's start index) and
start times are non-decreasing.  The same holds for the truncated event
list of a successful detector run. -/
theorem C3_event_invariants :
    ∀ (L n : ℕ) (d : ℕ → ℚ) (s : ℚ) (sv : ℕ → String) (ecg : List ℚ)
      (A : AnalysisResult),
      (∀ e ∈ apnea_events L n d s sv,
        e.start_index % 250 = 0
        ∧ e.end_index = min (e.start_index + 250) (L - 1)
        ∧ (e.end_index % 250 = 0 ∨ e.end_index = L - 1))
      ∧ (apnea_events L n d s sv).Pairwise
          (fun a b => a.end_index ≤ b.start_index ∧ a.start_time ≤ b.start_time)
      ∧ (detect_sleep_apnea ecg d s sv = some A →
          (∀ e ∈ A.apnea_events,
            e.start_index % 250 = 0
            ∧ (e.end_index % 250 = 0 ∨ e.end_index = ecg.length - 1))
          ∧ A.apnea_events.Pairwise
              (fun a b => a.end_index ≤ b.start_index ∧ a.start_time ≤ b.start_time)) := by
  intro L n d s sv ecg A
  have hmem : ∀ (L' n' : ℕ), ∀ e ∈ apnea_events L' n' d s sv,
      e.start_index % 250 = 0
      ∧ e.end_index = min (e.start_index + 250) (L' - 1)
      ∧ (e.end_index % 250 = 0 ∨ e.end_index = L' - 1) := by
    intro L' n' e he
    obtain ⟨i, hi, hp, rfl⟩ := (mem_apnea_events _ _ _ _ _ _).mp he
    refine ⟨?_, ?_, ?_⟩
    · show i * 250 % 250 = 0
      omega
    · show min ((i + 1) * 250) (L' - 1) = min (i * 250 + 250) (L' - 1)
      congr 1
      ring
    · show min ((i + 1) * 250) (L' - 1) % 250 = 0
        ∨ min ((i + 1) * 250) (L' - 1) = L' - 1
      omega
  refine ⟨hmem L n, apnea_events_pairwise L n d s sv, ?_⟩
  intro h
  obtain ⟨h1, h2, rfl⟩ := (detect_eq_some_iff _ _ _ _ _).mp h
  constructor
  · intro e he
    have he' : e ∈ apnea_events ecg.length (segments ecg).length d s sv :=
      (List.take_sublist _ _).subset he
    obtain ⟨ha, _, hc⟩ := hmem _ _ e he'
    exact ⟨ha, hc⟩
  · exact List.Pairwise.sublist (List.take_sublist _ _)
      (apnea_events_pairwise _ _ _ _ _)

/-- C3 witness: a concrete successful run whose reported event list
satisfies the ordering/no-overlap invariant. -/
theorem C3_event_invariants_witness :
    ∃ A, detect_sleep_apnea (List.replicate 300 (0 : ℚ)) (fun _ => 2 / 3) 0
        (fun _ => ("moderate")) = some A
      ∧ A.apnea_events.Pairwise
          (fun a b => a.end_index ≤ b.start_index ∧ a.start_time ≤ b.start_time) := by
  have hlen : (List.replicate 300 (0 : ℚ)).length = 300 :=
    List.length_replicate _ _
  have hseg : (segments (List.replicate 300 (0 : ℚ))).length = 1 := by
    rw [segments_length, hlen]
  have h := (detect_eq_some_iff (List.replicate 300 (0 : ℚ)) (fun _ => 2 / 3) 0
      (fun _ => ("moderate")) _).mpr ⟨by omega, by omega, rfl⟩
  exact ⟨_, h,
    ((C3_event_invariants 0 0 (fun _ => 2 / 3) 0 (fun _ => ("moderate"))
      (List.replicate 300 (0 : ℚ)) _).2.2 h).2⟩

/-- C6 counterexample: for the single-keyed-object payload
`{"ecg": ["x"]}` the parser returns `["x"]`, which contains a
non-numeric element — the priority-key branch checks only that the value
is a list, never that its elements are numeric. -/
theorem C6_priority_non_numeric :
    parse_json_file (.obj [(("ecg"), .arr [.str ("x")])]) = some [.str ("x")]
    ∧ jsonIsNumber (.str ("x")) = false :=
  ⟨rfl, rfl⟩

/-- C6 (corrected): for a single keyed object the parser first returns
the value stored under the first priority key holding a list — with no
numeric check, so that branch can return non-numeric elements; only when
no priority key holds a list does it fall back to the first field holding
a nonempty all-numeric list, and only that fallback's result is
guaranteed all numeric. -/
theorem C6_dict_extraction :
    ∀ (fields : List (String × JsonValue)) (l : List JsonValue),
      (findPriorityList fields = some l →
        parse_json_file (.obj fields) = some l)
      ∧ (findPriorityList fields = none →
          parse_json_file (.obj fields) = findNumericList fields)
      ∧ (findNumericList fields = some l →
          l ≠ [] ∧ l.all jsonIsNumber = true)
      ∧ (parse_json_file (.obj fields) = some l →
          (∃ k ∈ priority_keys, lookupField fields k = some (.arr l))
          ∨ (l ≠ [] ∧ l.all jsonIsNumber = true)) := by
  intro fields l
  refine ⟨?_, ?_, findNumericList_spec fields l, ?_⟩
  · intro h
    show (match findPriorityList fields with
          | some l' => some l'
          | none => findNumericList fields) = some l
    rw [h]
  · intro h
    show (match findPriorityList fields with
          | some l' => some l'
          | none => findNumericList fields) = findNumericList fields
    rw [h]
  · intro h
    have h' : (match findPriorityList fields with
          | some l' => some l'
          | none => findNumericList fields) = some l := h
    cases hp : findPriorityList fields with
    | some l' =>
      rw [hp] at h'
      injection h' with h''
      subst h''
      exact Or.inl (findPriorityList_spec fields _ hp)
    | none =>
      rw [hp] at h'
      exact Or.inr (findNumericList_spec fields l h')

/-- C6 witness: the priority branch fires on `{"data": [1]}`, and the
fallback branch's result on `{"zzz": [2]}` is nonempty and numeric. -/
theorem C6_dict_extraction_witness :
    parse_json_file (.obj [(("data"), .arr [.num 1])]) = some [.num 1]
    ∧ ([JsonValue.num 2] ≠ []
        ∧ [JsonValue.num 2].all jsonIsNumber = true) :=
  ⟨(C6_dict_extraction [(("data"), .arr [.num 1])] [.num 1]).1 rfl,
    (C6_dict_extraction [(("zzz"), .arr [.num 2])] [.num 2]).2.2.1 rfl⟩

/-- C7 counterexample: the structured payload `{"signal": ["a", "b"]}`
contains only non-numeric content, yet parsing succeeds with a nonempty
non-numeric sequence instead of a `ParseFailure`, and the route's
`None`/zero-length guard does not stop it before the detector. -/
theorem C7_non_numeric_success :
    parse_json_file (.obj [(("signal"), .arr [.str ("a"), .str ("b")])])
      = some [.str ("a"), .str ("b")]
    ∧ jsonIsNumber (.str ("a")) = false
    ∧ jsonIsNumber (.str ("b")) = false
    ∧ [JsonValue.str ("a"), JsonValue.str ("b")].length ≠ 0 :=
  ⟨rfl, rfl, rfl, by norm_num⟩

/-- C7 (corrected): the txt, apn and csv-fallback extractors return
`None` on payloads with no numeric token; the upload route rejects `None`
and zero-length extractions with the parse-failure error before calling
the detector, and a successful analysis implies the extraction was
nonempty (at least 250 samples).  The structured format, however, can
return a nonempty non-numeric sequence from its priority-key branch (see
the counterexample), so "ParseFailure for every declared format" fails. -/
theorem C7_failure_handling :
    ∀ (ls : List (List Token)) (parsed : Option (List ℚ)) (d : ℕ → ℚ)
      (s : ℚ) (sv : ℕ → String) (A : AnalysisResult),
      (noNumericToken ls →
        parse_txt_file ls = none ∧ parse_apn_file ls = none
          ∧ csv_fallback ls = none)
      ∧ upload_analysis none d s sv = .error err_no_data
      ∧ upload_analysis (some []) d s sv = .error err_no_data
      ∧ (upload_analysis parsed d s sv = .ok A →
          ∃ ecg, parsed = some ecg ∧ ecg ≠ [] ∧ 250 ≤ ecg.length) := by
  intro ls parsed d s sv A
  refine ⟨?_, rfl, rfl, ?_⟩
  · intro h
    refine ⟨?_, ?_, ?_⟩
    · unfold parse_txt_file
      rw [foldl_txt_no_num ls [] h]
      rfl
    · unfold parse_apn_file
      rw [foldl_apn_no_num ls [] h]
      rfl
    · unfold csv_fallback
      rw [foldl_csv_no_num ls [] h]
      rfl
  · intro h
    cases parsed with
    | none => exact absurd h (by simp [upload_analysis])
    | some ecg =>
      have h' : (if ecg.length = 0 then (Except.error err_no_data : Except String AnalysisResult)
          else match detect_sleep_apnea ecg d (clamp_sensitivity s) sv with
            | none => Except.error err_analyze
            | some a => Except.ok a) = Except.ok A := h
      by_cases hl : ecg.length = 0
      · rw [if_pos hl] at h'
        exact absurd h' (by simp)
      · rw [if_neg hl] at h' 
        have hne : ecg ≠ [] := by
          intro hnil
          subst hnil
          exact hl rfl
        refine ⟨ecg, rfl, hne, ?_⟩
        cases hd : detect_sleep_apnea ecg d (clamp_sensitivity s) sv with
        | none =>
          rw [hd] at h'
          exact absurd h' (by simp)
        | some a =>
          have hseg := ((detect_eq_some_iff _ _ _ _ _).mp hd).2.1
          rw [segments_length] at hseg
          omega

/-- C7 witness: a concrete all-non-numeric payload fails in all three
line-oriented extractors. -/
theorem C7_failure_handling_witness :
    parse_txt_file [[Token.raw ("abc")], []] = none
    ∧ parse_apn_file [[Token.raw ("abc")], []] = none
    ∧ csv_fallback [[Token.raw ("abc")], []] = none :=
  (C7_failure_handling [[Token.raw ("abc")], []] none (fun _ => 0) 0
      (fun _ => ("mild")) ⟨0, 0, ("Normal"), 0, [], [], ⟨0, 0, 0, 0⟩⟩).1
    (by
      unfold noNumericToken
      decide)

/-- The final wrap of every line-oriented parser: a nonempty extraction
is returned as a success. -/
theorem ite_isEmpty_some (data : List ℚ) (h : data ≠ []) :
    (if data.isEmpty then none else some data) = some data := by
  cases data with
  | nil => exact absurd rfl h
  | cons a t => rfl

/-- C8 counterexample: the apn payload line `"1 2"` holds exactly two
numeric tokens and no noise lines, yet parsing yields the single value
`[2]` — the parser keeps only the last token of a multi-token line — not
a sequence of length 2. -/
theorem C8_apn_counterexample :
    parse_apn_file [[Token.num 1, Token.num 2]] = some [2]
    ∧ [[Token.num 1, Token.num 2]].flatten.length = 2
    ∧ ([(2 : ℚ)]).length = 1 :=
  ⟨rfl, rfl, rfl⟩

/-- Payloads of single-token lines have one flattened token per line. -/
theorem flatten_length_single (ls : List (List Token))
    (h : ∀ ts ∈ ls, ∃ q, ts = [Token.num q]) :
    ls.flatten.length = ls.length := by
  induction ls with
  | nil => rfl
  | cons ts rest ih =>
    obtain ⟨q, rfl⟩ := h ts (by simp)
    have := ih (fun ts' hts' => h ts' (by simp [hts']))
    simp [this]

/-- C8 (corrected): parsing a payload of exactly N numeric tokens and no
noise yields the N values in order for the plain-text format, for the
csv line fallback, and for structured numeric arrays; for the
custom-tagged (apn) format this holds only when every line has a single
token, because that format keeps just the last token of each line. -/
theorem C8_clean_payload :
    ∀ (ls : List (List Token)) (qs : List ℚ),
      ((∀ ts ∈ ls, cleanNumericLine ts) → ls ≠ [] →
        parse_txt_file ls = some (tokenValues ls)
        ∧ (tokenValues ls).length = ls.flatten.length)
      ∧ ((∀ ts ∈ ls, ∃ q, ts = [Token.num q]) → ls ≠ [] →
        parse_apn_file ls = some (tokenValues ls)
        ∧ (tokenValues ls).length = ls.length)
      ∧ ((∀ ts ∈ ls, cleanNumericLine ts) → ls ≠ [] →
        csv_fallback ls = some (tokenValues ls)
        ∧ (tokenValues ls).length = ls.flatten.length)
      ∧ (parse_json_file (.arr (qs.map JsonValue.num))
            = some (qs.map JsonValue.num)
          ∧ (qs.map JsonValue.num).length = qs.length) := by
  intro ls qs
  have hvals : (∀ ts ∈ ls, cleanNumericLine ts) →
      (tokenValues ls).length = ls.flatten.length := by
    intro h
    apply tokenValues_length
    intro t ht
    rw [List.mem_flatten] at ht
    obtain ⟨ts, hts, htt⟩ := ht
    exact (h ts hts).2 t htt
  have hpos : (∀ ts ∈ ls, cleanNumericLine ts) → ls ≠ [] →
      0 < ls.flatten.length := by
    intro h hne
    cases ls with
    | nil => exact absurd rfl hne
    | cons ts rest =>
      have h1 : ts ≠ [] := (h ts (by simp)).1
      have h2 : 0 < ts.length := List.length_pos.mpr h1
      rw [List.flatten_cons, List.length_append]
      omega
  refine ⟨?_, ?_, ?_, ?_⟩
  · intro hclean hne
    have hlen := hvals hclean
    have hne' : tokenValues ls ≠ [] := by
      intro h0
      have hzz : (tokenValues ls).length = 0 := by rw [h0]; rfl
      have hfl := hpos hclean hne
      omega
    refine ⟨?_, hlen⟩
    show (if (ls.foldl txt_line_step []).isEmpty then none
          else some (ls.foldl txt_line_step [])) = some (tokenValues ls)
    rw [foldl_txt_clean ls [] hclean, List.nil_append]
    exact ite_isEmpty_some _ hne'
  · intro hsingle hne
    have hclean1 : ∀ t ∈ ls.flatten, ∃ q, t = Token.num q := by
      intro t ht
      rw [List.mem_flatten] at ht
      obtain ⟨ts, hts, htt⟩ := ht
      obtain ⟨q, rfl⟩ := hsingle ts hts
      simp only [List.mem_cons, List.not_mem_nil, or_false] at htt
      exact ⟨q, htt⟩
    have hlen : (tokenValues ls).length = ls.length := by
      rw [tokenValues_length ls hclean1, flatten_length_single ls hsingle]
    have hne' : tokenValues ls ≠ [] := by
      intro h0
      have hzz : (tokenValues ls).length = 0 := by rw [h0]; rfl
      rw [hlen] at hzz
      exact hne (List.length_eq_zero.mp hzz)
    refine ⟨?_, hlen⟩
    show (if (ls.foldl apn_line_step []).isEmpty then none
          else some (ls.foldl apn_line_step [])) = some (tokenValues ls)
    rw [foldl_apn_single ls [] hsingle, List.nil_append]
    exact ite_isEmpty_some _ hne'
  · intro hclean hne
    have hlen := hvals hclean
    have hne' : tokenValues ls ≠ [] := by
      intro h0
      have hzz : (tokenValues ls).length = 0 := by rw [h0]; rfl
      have hfl := hpos hclean hne
      omega
    refine ⟨?_, hlen⟩
    show (if (ls.foldl csv_line_step []).isEmpty then none
          else some (ls.foldl csv_line_step [])) = some (tokenValues ls)
    rw [foldl_csv_clean ls [] hclean, List.nil_append]
    exact ite_isEmpty_some _ hne'
  · have hall : (qs.map JsonValue.num).all jsonIsNumber = true := by
      rw [List.all_eq_true]
      intro x hx
      rw [List.mem_map] at hx
      obtain ⟨q, _, rfl⟩ := hx
      rfl
    refine ⟨?_, by rw [List.length_map]⟩
    show (if (qs.map JsonValue.num).all jsonIsNumber
          then some (qs.map JsonValue.num)
          else extractRecordValues (qs.map JsonValue.num))
        = some (qs.map JsonValue.num)
    rw [hall]
    rfl

/-- C8 witness: a two-line plain-text payload parses to all three of its
values; a two-line single-token apn payload parses to its two values. -/
theorem C8_clean_payload_witness :
    parse_txt_file [[Token.num 1], [Token.num 2, Token.num 3]]
      = some (tokenValues [[Token.num 1], [Token.num 2, Token.num 3]])
    ∧ parse_apn_file [[Token.num 5], [Token.num 7]]
      = some (tokenValues [[Token.num 5], [Token.num 7]])
    ∧ (tokenValues [[Token.num 5], [Token.num 7]]).length
        = [[Token.num 5], [Token.num 7]].length := by
  have hc : ∀ ts ∈ [[Token.num (1 : ℚ)], [Token.num 2, Token.num 3]],
      cleanNumericLine ts := by
    intro ts hts
    simp only [List.mem_cons, List.not_mem_nil, or_false] at hts
    rcases hts with rfl | rfl
    · refine ⟨by simp, ?_⟩
      intro t ht
      simp only [List.mem_cons, List.not_mem_nil, or_false] at ht
      exact ⟨1, ht⟩
    · refine ⟨by simp, ?_⟩
      intro t ht
      simp only [List.mem_cons, List.not_mem_nil, or_false] at ht
      rcases ht with rfl | rfl
      · exact ⟨2, rfl⟩
      · exact ⟨3, rfl⟩
  have hs : ∀ ts ∈ [[Token.num (5 : ℚ)], [Token.num 7]],
      ∃ q, ts = [Token.num q] := by
    intro ts hts
    simp only [List.mem_cons, List.not_mem_nil, or_false] at hts
    rcases hts with rfl | rfl
    · exact ⟨5, rfl⟩
    · exact ⟨7, rfl⟩
  have h2 := (C8_clean_payload [[Token.num 5], [Token.num 7]] []).2.1 hs
    (by simp)
  exact ⟨((C8_clean_payload [[Token.num 1], [Token.num 2, Token.num 3]] []).1
      hc (by simp)).1,
    (h2).1, (h2).2⟩
